import Mathlib

/-!
Verification of the WaQteK HR leave-balance subsystem (`backend/server.py`).

The document store (MongoDB collections accessed through `find_one`,
`insert_one`, `update_one`) is modelled as lists of records inside a
`DBState`; `find_one` is `List.find?`, `insert_one` appends, and
`update_one` rewrites the first matching record.  Python floats are
modelled as rationals (every value reachable in this subsystem is a
multiple of 0.5, on which binary floating point is exact), datetimes by
the `(year, month)` pair the code extracts from them, and the uuid4
identifiers generated inside a handler are passed in as explicit `fresh`
arguments.  FastAPI `HTTPException`s and the Python `TypeError` become an
`ApiError` value; endpoint handlers return `Except ApiError α` together
with the store state at the moment of return or raise, so partial writes
made before an exception stay visible.
-/

namespace WaQteK

/-- Roles of `UserRole(str, Enum)` in `server.py`. -/
inductive UserRole where
  | admin
  | hr
  | manager
  | employee
deriving DecidableEq, Repr

/-- A document of the `users` collection (model `User`); only the fields the
verified endpoints touch are kept. -/
structure UserRec where
  id : String
  email : String
  password_hash : String
  role : UserRole
  is_active : Bool
deriving DecidableEq, Repr

/-- A document of the `employees` collection (model `Employee`); `hire_date`
and `created_at` timestamps are abstracted to a number. -/
structure EmployeeRec where
  id : String
  user_id : String
  full_name : String
  email : String
  department : String
  position : String
  hire_date : Nat
  phone_number : String
  initial_leave_balance : ℚ
  is_active : Bool
  created_by : String
deriving DecidableEq, Repr

/-- A document of the `leave_balances` collection (model `LeaveBalance`). -/
structure LeaveBalanceRow where
  id : String
  employee_id : String
  year : Nat
  month : Nat
  opening_balance : ℚ
  leave_taken : ℚ
  hr_adjustments : ℚ
  closing_balance : ℚ
deriving DecidableEq, Repr

/-- A document of the `leave_adjustments` collection (model `LeaveAdjustment`). -/
structure LeaveAdjustmentRec where
  id : String
  employee_id : String
  adjustment_amount : ℚ
  reason : String
  adjusted_by : String
deriving DecidableEq, Repr

/-- A document of the `sick_days` collection (model `SickDays`). -/
structure SickDaysRec where
  id : String
  employee_id : String
  year : Nat
  used_days : Int
  total_allowed : Int
deriving DecidableEq, Repr

/-- The `details` payload dictionaries the verified endpoints write into
audit-log entries. -/
inductive AuditDetails where
  | adjustLeave (employee_name : String) (adjustment : ℚ) (reason : String) (new_balance : ℚ)
  | createEmployee (employee_name : String) (email : String)
deriving DecidableEq, Repr

/-- A document of the `audit_logs` collection (model `AuditLog`). -/
structure AuditLogRec where
  user_id : String
  action : String
  target_type : String
  target_id : String
  details : AuditDetails
deriving DecidableEq, Repr

/-- The document store: one list per MongoDB collection. -/
structure DBState where
  users : List UserRec
  employees : List EmployeeRec
  leave_balances : List LeaveBalanceRow
  leave_adjustments : List LeaveAdjustmentRec
  sick_days : List SickDaysRec
  audit_logs : List AuditLogRec
deriving DecidableEq, Repr

/-- The store with every collection empty. -/
def DBState.empty : DBState := ⟨[], [], [], [], [], []⟩

/-- The `(year, month)` pair the handlers extract from `datetime.utcnow()`. -/
structure NowDate where
  year : Nat
  month : Nat
deriving DecidableEq, Repr

/-- Errors a handler can end with: `HTTPException(status_code, detail)`
raised on purpose, or a Python `TypeError` escaping the handler. -/
inductive ApiError where
  | http (status_code : Nat) (detail : String)
  | typeError (message : String)
deriving DecidableEq, Repr

/-- Response model `EmployeeResponse` of `server.py`. -/
structure EmployeeResponse where
  id : String
  full_name : String
  email : String
  department : String
  position : String
  hire_date : Nat
  phone_number : String
  current_leave_balance : ℚ
  sick_days_used : Int
  sick_days_remaining : Int
deriving DecidableEq, Repr

/-- The success payload of `adjust_leave_balance`. -/
structure AdjustResponse where
  message : String
  new_balance : ℚ
  adjustment : ℚ
deriving DecidableEq, Repr

/-- Rewrite the first record matching `p` (MongoDB `update_one`). -/
def updateFirst (p : α → Bool) (f : α → α) : List α → List α
  | [] => []
  | x :: xs => if p x then f x :: xs else x :: updateFirst p f xs

/-- The `find_one` filter on `leave_balances` used by all handlers:
`{"employee_id": eid, "year": y, "month": m}`. -/
def month_key (employee_id : String) (year month : Nat) (b : LeaveBalanceRow) : Bool :=
  b.employee_id == employee_id && b.year == year && b.month == month

/-- The `find_one` filter on `employees` used by all handlers:
`{"id": eid, "is_active": True}`. -/
def active_with_id (employee_id : String) (e : EmployeeRec) : Bool :=
  e.id == employee_id && e.is_active

/-- The `bcrypt` password hash; its value is irrelevant to every claim, so
it is modelled as an uninterpreted function of the password. -/
def hash_password (password : String) : String := password

/-- Embedding of `require_role` from `server.py`: the FastAPI dependency that rejects with
a 403 any actor whose role is not in `allowed_roles`. -/
def require_role (allowed_roles : List UserRole) (current_user : UserRec) :
    Except ApiError UserRec :=
  if current_user.role ∈ allowed_roles then .ok current_user
  else .error (.http 403 "Access denied")

/-- Embedding of `log_audit` from `server.py`: append one audit-log document. -/
def log_audit (s : DBState) (user_id action target_type target_id : String)
    (details : AuditDetails) : DBState :=
  { s with audit_logs := s.audit_logs ++ [⟨user_id, action, target_type, target_id, details⟩] }

/-- Outcome of the find-or-create block of `adjust_leave_balance`
(lines 421-436): either the store's document (a dict) was found, or a fresh
pydantic `LeaveBalance` model was built and its dict inserted. -/
inductive ResolvedBalance where
  | found (row : LeaveBalanceRow)
  | created (row : LeaveBalanceRow)
deriving DecidableEq, Repr

/-- The find-or-create block of `adjust_leave_balance` (lines 421-436):
look up the `(employee_id, year, month)` row; if absent, build a
`LeaveBalance` with `opening_balance=0.0, closing_balance=0.0` (pydantic
defaults `leave_taken=0.0, hr_adjustments=0.0`) and insert its dict. -/
def resolve_month_balance (s : DBState) (employee_id : String) (year month : Nat)
    (fresh_balance_id : String) : ResolvedBalance × DBState :=
  match s.leave_balances.find? (month_key employee_id year month) with
  | some leave_balance => (.found leave_balance, s)
  | none =>
    let leave_balance : LeaveBalanceRow :=
      { id := fresh_balance_id
        employee_id := employee_id
        year := year
        month := month
        opening_balance := 0
        leave_taken := 0
        hr_adjustments := 0
        closing_balance := 0 }
    (.created leave_balance, { s with leave_balances := s.leave_balances ++ [leave_balance] })

/-- Embedding of `adjust_leave_balance` from `server.py` (lines 403-476).  In the branch
where no balance row existed, the Python variable `leave_balance` holds the
freshly built pydantic model, and line 439 evaluates
`leave_balance["closing_balance"]`; a pydantic `BaseModel` is not
subscriptable, so this raises `TypeError` after the insert already
happened — the `created` branch below returns that error. -/
def adjust_leave_balance (employee_id : String) (adjustment : ℚ) (reason : String)
    (current_user : UserRec) (now : NowDate) (fresh_balance_id fresh_adjustment_id : String)
    (s : DBState) : Except ApiError AdjustResponse × DBState :=
  match require_role [UserRole.admin, UserRole.hr] current_user with
  | .error e => (.error e, s)
  | .ok current_user =>
    if adjustment ∉ [(1 : ℚ), -1, 0.5, -0.5] then
      (.error (.http 400 "Invalid adjustment amount"), s)
    else
      match s.employees.find? (active_with_id employee_id) with
      | none => (.error (.http 404 "Employee not found"), s)
      | some employee =>
        match resolve_month_balance s employee_id now.year now.month fresh_balance_id with
        | (.created _, s1) =>
          (.error (.typeError "LeaveBalance object is not subscriptable"), s1)
        | (.found leave_balance, s1) =>
          let new_balance := leave_balance.closing_balance + adjustment
          let s2 := { s1 with
            leave_balances := updateFirst (fun b => b.id == leave_balance.id)
              (fun b => { b with
                closing_balance := new_balance
                hr_adjustments := b.hr_adjustments + adjustment })
              s1.leave_balances }
          let s3 := { s2 with
            leave_adjustments := s2.leave_adjustments ++
              [⟨fresh_adjustment_id, employee_id, adjustment, reason, current_user.id⟩] }
          let s4 := log_audit s3 current_user.id "ADJUST_LEAVE_BALANCE" "employee" employee_id
            (.adjustLeave employee.full_name adjustment reason new_balance)
          (.ok ⟨"Leave balance adjusted successfully", new_balance, adjustment⟩, s4)

/-- Request model `EmployeeCreate` of `server.py`. -/
structure EmployeeCreate where
  full_name : String
  email : String
  department : String
  position : String
  hire_date : Nat
  phone_number : String
  initial_leave_balance : ℚ
  password : String
  role : UserRole
deriving DecidableEq, Repr

/-- The uuid4 identifiers `create_employee` generates for the four
documents it inserts. -/
structure FreshEmployeeIds where
  user_id : String
  employee_id : String
  balance_id : String
  sick_id : String
deriving DecidableEq, Repr

/-- Embedding of `create_employee` from `server.py` (lines 246-319): checks, then inserts
a user, an employee, a seeded leave-balance row, a sick-days row, and an
audit-log entry. -/
def create_employee (employee_data : EmployeeCreate) (current_user : UserRec)
    (now : NowDate) (fresh : FreshEmployeeIds) (s : DBState) :
    Except ApiError EmployeeResponse × DBState :=
  match require_role [UserRole.admin, UserRole.hr] current_user with
  | .error e => (.error e, s)
  | .ok current_user =>
    match s.users.find? (fun u => u.email == employee_data.email) with
    | some _ => (.error (.http 400 "User with this email already exists"), s)
    | none =>
      if current_user.role = UserRole.hr ∧
          employee_data.role ∉ [UserRole.employee, UserRole.manager] then
        (.error (.http 403 "HR can only create Employee and Manager roles"), s)
      else
        let user : UserRec :=
          { id := fresh.user_id
            email := employee_data.email
            password_hash := hash_password employee_data.password
            role := employee_data.role
            is_active := true }
        let s1 := { s with users := s.users ++ [user] }
        let employee : EmployeeRec :=
          { id := fresh.employee_id
            user_id := user.id
            full_name := employee_data.full_name
            email := employee_data.email
            department := employee_data.department
            position := employee_data.position
            hire_date := employee_data.hire_date
            phone_number := employee_data.phone_number
            initial_leave_balance := employee_data.initial_leave_balance
            is_active := true
            created_by := current_user.id }
        let s2 := { s1 with employees := s1.employees ++ [employee] }
        let leave_balance : LeaveBalanceRow :=
          { id := fresh.balance_id
            employee_id := employee.id
            year := now.year
            month := now.month
            opening_balance := employee_data.initial_leave_balance
            leave_taken := 0
            hr_adjustments := 0
            closing_balance := employee_data.initial_leave_balance }
        let s3 := { s2 with leave_balances := s2.leave_balances ++ [leave_balance] }
        let sick_days : SickDaysRec :=
          { id := fresh.sick_id
            employee_id := employee.id
            year := now.year
            used_days := 0
            total_allowed := 3 }
        let s4 := { s3 with sick_days := s3.sick_days ++ [sick_days] }
        let s5 := log_audit s4 current_user.id "CREATE_EMPLOYEE" "employee" employee.id
          (.createEmployee employee.full_name employee.email)
        (.ok { id := employee.id
               full_name := employee.full_name
               email := employee.email
               department := employee.department
               position := employee.position
               hire_date := employee.hire_date
               phone_number := employee.phone_number
               current_leave_balance := employee_data.initial_leave_balance
               sick_days_used := 0
               sick_days_remaining := 3 }, s5)

/-- The current-month closing balance as both read endpoints compute it:
`leave_balance["closing_balance"] if leave_balance else 0.0`. -/
def current_balance_of (s : DBState) (employee_id : String) (now : NowDate) : ℚ :=
  match s.leave_balances.find? (month_key employee_id now.year now.month) with
  | some leave_balance => leave_balance.closing_balance
  | none => 0

/-- The used sick days as both read endpoints compute them:
`sick_days["used_days"] if sick_days else 0`. -/
def sick_days_used_of (s : DBState) (employee_id : String) (now : NowDate) : Int :=
  match s.sick_days.find? (fun d => d.employee_id == employee_id && d.year == now.year) with
  | some sick_days => sick_days.used_days
  | none => 0

/-- The `EmployeeResponse` both read endpoints build for one employee
document. -/
def employee_response (s : DBState) (emp : EmployeeRec) (employee_id : String)
    (now : NowDate) : EmployeeResponse :=
  let sick_days_used := sick_days_used_of s employee_id now
  { id := emp.id
    full_name := emp.full_name
    email := emp.email
    department := emp.department
    position := emp.position
    hire_date := emp.hire_date
    phone_number := emp.phone_number
    current_leave_balance := current_balance_of s employee_id now
    sick_days_used := sick_days_used
    sick_days_remaining := 3 - sick_days_used }

/-- Embedding of `get_employee` from `server.py` (lines 362-400). -/
def get_employee (employee_id : String) (current_user : UserRec) (now : NowDate)
    (s : DBState) : Except ApiError EmployeeResponse :=
  match require_role [UserRole.admin, UserRole.hr, UserRole.manager] current_user with
  | .error e => .error e
  | .ok _ =>
    match s.employees.find? (active_with_id employee_id) with
    | none => .error (.http 404 "Employee not found")
    | some employee => .ok (employee_response s employee employee_id now)

/-- Embedding of `get_employees` from `server.py` (lines 321-360): all documents with
`is_active: True`, each enriched like `get_employee`. -/
def get_employees (current_user : UserRec) (now : NowDate) (s : DBState) :
    Except ApiError (List EmployeeResponse) :=
  match require_role [UserRole.admin, UserRole.hr, UserRole.manager] current_user with
  | .error e => .error e
  | .ok _ =>
    .ok ((s.employees.filter (fun e => e.is_active)).map
      (fun emp => employee_response s emp emp.id now))

/-! ### Concrete fixtures used by witnesses and counterexamples

Values follow the sample data of `init_data.py`: employees start with
`initial_leave_balance = 20.0` and a seeded current-month row. -/

def hrActor : UserRec :=
  { id := "user-hr", email := "hr1@waqtek.com", password_hash := hash_password "hr123"
    role := .hr, is_active := true }

def adminActor : UserRec :=
  { id := "user-admin", email := "admin@waqtek.com", password_hash := hash_password "admin123"
    role := .admin, is_active := true }

def managerActor : UserRec :=
  { id := "user-mgr", email := "manager1@waqtek.com", password_hash := hash_password "manager123"
    role := .manager, is_active := true }

def employeeActor : UserRec :=
  { id := "user-emp", email := "emp1@waqtek.com", password_hash := hash_password "emp123"
    role := .employee, is_active := true }

def octNow : NowDate := ⟨2025, 10⟩

def amina : EmployeeRec :=
  { id := "emp-1", user_id := "user-emp", full_name := "Amina Mahmoud"
    email := "emp1@waqtek.com", department := "IT", position := "Software Developer"
    hire_date := 90, phone_number := "+1234567896", initial_leave_balance := 20
    is_active := true, created_by := "system" }

/-- Amina's seeded balance row for the current month (October 2025). -/
def aminaOctRow : LeaveBalanceRow := ⟨"bal-oct", "emp-1", 2025, 10, 20, 0, 0, 20⟩

/-- Amina's balance row for the previous month (September 2025). -/
def aminaSepRow : LeaveBalanceRow := ⟨"bal-sep", "emp-1", 2025, 9, 20, 0, 0, 20⟩

def aminaSick : SickDaysRec := ⟨"sick-1", "emp-1", 2025, 1, 3⟩

/-- A soft-deleted employee. -/
def youssef : EmployeeRec :=
  { id := "emp-2", user_id := "user-emp-2", full_name := "Youssef Ibrahim"
    email := "emp2@waqtek.com", department := "IT", position := "Frontend Developer"
    hire_date := 90, phone_number := "+1234567897", initial_leave_balance := 20
    is_active := false, created_by := "system" }

/-- Store where Amina's current-month balance row already exists. -/
def withRowState : DBState := ⟨[hrActor], [amina], [aminaOctRow], [], [aminaSick], []⟩

/-- Store where Amina has history (September row, closing 20) but no row
for the current month (October 2025). -/
def noRowState : DBState := ⟨[hrActor], [amina], [aminaSepRow], [], [aminaSick], []⟩

/-- Store holding one active and one soft-deleted employee. -/
def mixedState : DBState := ⟨[hrActor], [amina, youssef], [aminaOctRow], [], [aminaSick], []⟩

/-- The summary `get_employee` returns for Amina from `withRowState`. -/
def aminaSummary : EmployeeResponse :=
  { id := "emp-1", full_name := "Amina Mahmoud", email := "emp1@waqtek.com"
    department := "IT", position := "Software Developer", hire_date := 90
    phone_number := "+1234567896", current_leave_balance := 20
    sick_days_used := 1, sick_days_remaining := 2 }

/-! ### Reachable store states (claim C4) -/

/-- The per-row balance equation of claim C4. -/
def rowBalanced (b : LeaveBalanceRow) : Prop :=
  b.closing_balance = b.opening_balance + b.hr_adjustments

/-- Strengthened ledger invariant: balance-row ids are pairwise distinct
(`uuid4` collisions are ignored) and every row satisfies `rowBalanced`. -/
def goodLedger (s : DBState) : Prop :=
  (s.leave_balances.map (fun b => b.id)).Nodup ∧ ∀ b ∈ s.leave_balances, rowBalanced b

/-- Store states reachable from the empty store by `create_employee` and
`adjust_leave_balance` calls; the uuid4 balance-row id generated inside a
call is assumed fresh. -/
inductive Reachable : DBState → Prop
  | empty : Reachable DBState.empty
  | create (employee_data : EmployeeCreate) (current_user : UserRec) (now : NowDate)
      (fresh : FreshEmployeeIds) {s : DBState}
      (hfresh : fresh.balance_id ∉ s.leave_balances.map (fun b => b.id))
      (hs : Reachable s) :
      Reachable (create_employee employee_data current_user now fresh s).2
  | adjust (employee_id : String) (adjustment : ℚ) (reason : String)
      (current_user : UserRec) (now : NowDate) (fresh_balance_id fresh_adjustment_id : String)
      {s : DBState}
      (hfresh : fresh_balance_id ∉ s.leave_balances.map (fun b => b.id))
      (hs : Reachable s) :
      Reachable (adjust_leave_balance employee_id adjustment reason current_user now
        fresh_balance_id fresh_adjustment_id s).2

/-- Creation request used to build the demo reachable state. -/
def demoCreate : EmployeeCreate :=
  { full_name := "Amina Mahmoud", email := "emp1@waqtek.com", department := "IT"
    position := "Software Developer", hire_date := 90, phone_number := "+1234567896"
    initial_leave_balance := 20, password := "emp123", role := .employee }

def demoFresh : FreshEmployeeIds := ⟨"user-1", "emp-1", "bal-1", "sick-1"⟩

/-- Create an employee in an empty store, then adjust the balance by `+1`. -/
def demoState : DBState :=
  (adjust_leave_balance "emp-1" 1 "make-up day" adminActor octNow "bal-x" "adj-x"
    (create_employee demoCreate adminActor octNow demoFresh DBState.empty).2).2

/-- The balance row `demoState` holds after the creation and the `+1`. -/
def demoRow : LeaveBalanceRow := ⟨"bal-1", "emp-1", 2025, 10, 20, 0, 1, 21⟩

/-! ### Sequential iteration of adjustments (claim C7, amended) -/

/-- Run one `adjust_leave_balance` call to completion per amount, in list
order; each call starts only after the previous one returned.  On the
row-exists path the generated ids are irrelevant, so fixed strings are
passed. -/
def apply_all (employee_id : String) (reason : String) (current_user : UserRec)
    (now : NowDate) (amounts : List ℚ) (s : DBState) : DBState :=
  match amounts with
  | [] => s
  | a :: rest =>
    apply_all employee_id reason current_user now rest
      (adjust_leave_balance employee_id a reason current_user now "seq-bal" "seq-adj" s).2

/-! ### Interleaving semantics of concurrent adjust requests (claim C7)

`adjust_leave_balance` performs five awaited store operations on its
row-exists path: the employee `find_one` (line 415), the balance
`find_one` (line 421), the balance `update_one` (line 442), the
adjustment `insert_one` (line 457) and the audit `insert_one` (line 459).
The motor driver executes each operation atomically, but the asyncio
event loop may switch between concurrent requests at every `await`, so an
interleaving is a sequence of such atomic operations.  The program
counter below names the next operation a request will perform and carries
the values already read. -/

inductive AdjustPc where
  | atEmployeeRead
  | atBalanceRead (employee : EmployeeRec)
  | atBalanceWrite (employee : EmployeeRec) (leave_balance : LeaveBalanceRow)
  | atAdjustmentInsert (employee : EmployeeRec) (new_balance : ℚ)
  | atAuditInsert (employee : EmployeeRec) (new_balance : ℚ)
  | finished (new_balance : ℚ)
deriving DecidableEq, Repr

/-- One in-flight `adjust_leave_balance` request with a valid amount and
an authorized actor (validation happens synchronously before the first
`await`, so it needs no step of its own). -/
structure AdjustRequest where
  employee_id : String
  adjustment : ℚ
  reason : String
  actor_id : String
  actor_name : String
  fresh_adjustment_id : String
  pc : AdjustPc
deriving DecidableEq, Repr

/-- Execute the next atomic store operation of one request.  `none` means
the request cannot step: it already returned, or it ended on an error
path (unknown employee, or the fresh-month `TypeError` path, neither of
which writes in this phase). -/
def request_step (now : NowDate) (r : AdjustRequest) (s : DBState) :
    Option (AdjustRequest × DBState) :=
  match r.pc with
  | .atEmployeeRead =>
    match s.employees.find? (active_with_id r.employee_id) with
    | none => none
    | some employee => some ({ r with pc := .atBalanceRead employee }, s)
  | .atBalanceRead employee =>
    match s.leave_balances.find? (month_key r.employee_id now.year now.month) with
    | none => none
    | some leave_balance => some ({ r with pc := .atBalanceWrite employee leave_balance }, s)
  | .atBalanceWrite employee leave_balance =>
    let new_balance := leave_balance.closing_balance + r.adjustment
    let s2 := { s with
      leave_balances := updateFirst (fun b => b.id == leave_balance.id)
        (fun b => { b with
          closing_balance := new_balance
          hr_adjustments := b.hr_adjustments + r.adjustment })
        s.leave_balances }
    some ({ r with pc := .atAdjustmentInsert employee new_balance }, s2)
  | .atAdjustmentInsert employee new_balance =>
    some ({ r with pc := .atAuditInsert employee new_balance },
      { s with leave_adjustments := s.leave_adjustments ++
          [⟨r.fresh_adjustment_id, r.employee_id, r.adjustment, r.reason, r.actor_id⟩] })
  | .atAuditInsert employee new_balance =>
    some ({ r with pc := .finished new_balance },
      log_audit s r.actor_id "ADJUST_LEAVE_BALANCE" "employee" r.employee_id
        (.adjustLeave employee.full_name r.adjustment r.reason new_balance))
  | .finished _ => none

/-- Run a schedule: at each tick the event loop resumes the request with
the given index and executes its next atomic operation (indices that do
not resolve to a steppable request are skipped). -/
def run_schedule (now : NowDate) (schedule : List Nat) (reqs : List AdjustRequest)
    (s : DBState) : List AdjustRequest × DBState :=
  match schedule with
  | [] => (reqs, s)
  | i :: rest =>
    match reqs[i]? with
    | none => run_schedule now rest reqs s
    | some r =>
      match request_step now r s with
      | none => run_schedule now rest reqs s
      | some (r2, s2) => run_schedule now rest (reqs.set i r2) s2

/-- Two concurrent `+1.0` adjustments for Amina, one by HR and one by the
admin. -/
def raceRequests : List AdjustRequest :=
  [⟨"emp-1", 1, "comp day", "user-hr", "Sara Ahmed", "adj-c1", .atEmployeeRead⟩,
   ⟨"emp-1", 1, "comp day", "user-admin", "System Administrator", "adj-c2", .atEmployeeRead⟩]

/-- The interleaving in which both requests read the balance row before
either writes it: request 0 reads employee and balance, request 1 reads
employee and balance, then each writes and finishes. -/
def raceResult : List AdjustRequest × DBState :=
  run_schedule octNow [0, 0, 1, 1, 0, 0, 0, 1, 1, 1] raceRequests withRowState

/-! ### Lemmas about the store primitives -/

theorem mem_updateFirst {p : α → Bool} {f : α → α} {l : List α} {a : α}
    (h : a ∈ updateFirst p f l) : (∃ b ∈ l, p b = true ∧ a = f b) ∨ a ∈ l := by
  induction l with
  | nil => simp [updateFirst] at h
  | cons x xs ih =>
    by_cases hx : p x = true
    · simp only [updateFirst, if_pos hx] at h
      rcases List.mem_cons.mp h with h | h
      · exact Or.inl ⟨x, List.mem_cons_self x xs, hx, h⟩
      · exact Or.inr (List.mem_cons_of_mem x h)
    · simp only [updateFirst, if_neg hx] at h
      rcases List.mem_cons.mp h with h | h
      · exact Or.inr (h ▸ List.mem_cons_self x xs)
      · rcases ih h with ⟨b, hb, hpb, hab⟩ | h
        · exact Or.inl ⟨b, List.mem_cons_of_mem x hb, hpb, hab⟩
        · exact Or.inr (List.mem_cons_of_mem x h)

theorem map_updateFirst (p : α → Bool) (f : α → α) (g : α → β) {l : List α}
    (hf : ∀ x, g (f x) = g x) : (updateFirst p f l).map g = l.map g := by
  induction l with
  | nil => rfl
  | cons x xs ih =>
    by_cases hx : p x = true
    · simp [updateFirst, if_pos hx, hf]
    · simp [updateFirst, if_neg hx, ih]

theorem countP_updateFirst {p : α → Bool} {f : α → α} (q : α → Bool) {l : List α}
    (hf : ∀ x, q (f x) = q x) : (updateFirst p f l).countP q = l.countP q := by
  induction l with
  | nil => rfl
  | cons x xs ih =>
    by_cases hx : p x = true
    · simp [updateFirst, if_pos hx, List.countP_cons, hf]
    · simp [updateFirst, if_neg hx, List.countP_cons, ih]

/-! ### Claim theorems -/

/-- C2: for an authorized actor, an adjustment amount outside
`{1.0, -1.0, 0.5, -0.5}` makes `adjust_leave_balance` end in the
400 "Invalid adjustment amount" client error with the store returned
exactly as it was: the amount check precedes every store access, so no
balance row is created or updated and no `LeaveAdjustment` or `AuditLog`
document is written. -/
theorem adjust_invalid_amount_rejected (employee_id : String) (adjustment : ℚ)
    (reason : String) (current_user : UserRec) (now : NowDate)
    (fresh_balance_id fresh_adjustment_id : String) (s : DBState)
    (hrole : current_user.role ∈ [UserRole.admin, UserRole.hr])
    (ha : adjustment ∉ [(1 : ℚ), -1, 0.5, -0.5]) :
    adjust_leave_balance employee_id adjustment reason current_user now
        fresh_balance_id fresh_adjustment_id s
      = (.error (.http 400 "Invalid adjustment amount"), s) := by
  unfold adjust_leave_balance require_role
  simp [hrole, ha]

/-- C2 witness: the amount `2.0` (the spec scenario's rejected value) is
refused on `withRowState` with the state unchanged. -/
theorem adjust_invalid_amount_rejected_witness :
    adjust_leave_balance "emp-1" 2 "too big" hrActor octNow "bal-w2" "adj-w2" withRowState
      = (.error (.http 400 "Invalid adjustment amount"), withRowState) :=
  adjust_invalid_amount_rejected "emp-1" 2 "too big" hrActor octNow "bal-w2" "adj-w2"
    withRowState (by simp [hrActor]) (by norm_num)

/-- C8: the adjustment endpoint is permitted exactly for Admin and HR.
The `require_role` dependency accepts an actor iff its role is `admin` or
`hr`, and for a `manager` or `employee` actor `adjust_leave_balance` ends
in the 403 error with the store exactly as it was — the dependency runs
before the handler body, hence before any validation or write. -/
theorem adjust_role_matrix :
    (∀ u : UserRec,
      require_role [UserRole.admin, UserRole.hr] u = .ok u
        ↔ (u.role = .admin ∨ u.role = .hr))
    ∧ ∀ (employee_id : String) (adjustment : ℚ) (reason : String) (current_user : UserRec)
        (now : NowDate) (fresh_balance_id fresh_adjustment_id : String) (s : DBState),
        (current_user.role = .manager ∨ current_user.role = .employee) →
        adjust_leave_balance employee_id adjustment reason current_user now
            fresh_balance_id fresh_adjustment_id s
          = (.error (.http 403 "Access denied"), s) := by
  constructor
  · intro u
    constructor
    · intro h
      unfold require_role at h
      split at h
      · rename_i hmem
        simpa using hmem
      · exact absurd h (by simp)
    · intro h
      unfold require_role
      rw [if_pos (by simpa using h)]
  · intro employee_id adjustment reason current_user now fb fa s h
    rcases h with h | h <;> simp [adjust_leave_balance, require_role, h]

/-- C8 witness: a manager is refused with a 403 and no state change, an
employee likewise, and the HR and admin actors pass the role gate. -/
theorem adjust_role_matrix_witness :
    adjust_leave_balance "emp-1" 1 "try" managerActor octNow "bal-w8" "adj-w8" withRowState
      = (.error (.http 403 "Access denied"), withRowState)
    ∧ adjust_leave_balance "emp-1" 1 "try" employeeActor octNow "bal-w8b" "adj-w8b" withRowState
      = (.error (.http 403 "Access denied"), withRowState)
    ∧ require_role [UserRole.admin, UserRole.hr] hrActor = .ok hrActor
    ∧ require_role [UserRole.admin, UserRole.hr] adminActor = .ok adminActor :=
  ⟨adjust_role_matrix.2 "emp-1" 1 "try" managerActor octNow "bal-w8" "adj-w8" withRowState
      (Or.inl rfl),
   adjust_role_matrix.2 "emp-1" 1 "try" employeeActor octNow "bal-w8b" "adj-w8b" withRowState
      (Or.inr rfl),
   (adjust_role_matrix.1 hrActor).mpr (Or.inr rfl),
   (adjust_role_matrix.1 adminActor).mpr (Or.inl rfl)⟩

/-- C1: when the current-month row exists the adjustment does change
`closing_balance` by exactly the amount and leaves `opening_balance`
untouched (first and second conjuncts, on `withRowState` with `+1.0`),
but the claim fails for an existing active employee without a
current-month row: on `noRowState` the same call inserts the zero row and
then raises `TypeError` — `leave_balance` holds the freshly built
pydantic model and line 439 subscripts it — so no closing balance changes
by the amount (third conjunct exhibits the failing input). -/
theorem adjust_changes_closing_by_amount :
    ((adjust_leave_balance "emp-1" 1 "unpaid day" hrActor octNow "bal-n1" "adj-n1"
        withRowState).1 = .ok ⟨"Leave balance adjusted successfully", 21, 1⟩
      ∧ ((adjust_leave_balance "emp-1" 1 "unpaid day" hrActor octNow "bal-n1" "adj-n1"
            withRowState).2.leave_balances.find? (month_key "emp-1" 2025 10)).map
          (fun b => (b.opening_balance, b.closing_balance)) = some (20, 21))
    ∧ adjust_leave_balance "emp-1" 1 "unpaid day" hrActor octNow "bal-n2" "adj-n2" noRowState
        = (.error (.typeError "LeaveBalance object is not subscriptable"),
           { noRowState with leave_balances :=
               noRowState.leave_balances ++ [⟨"bal-n2", "emp-1", 2025, 10, 0, 0, 0, 0⟩] }) := by
  refine ⟨⟨?_, ?_⟩, ?_⟩ <;>
    simp [adjust_leave_balance, require_role, resolve_month_balance, month_key,
      active_with_id, updateFirst, log_audit, hrActor, withRowState, noRowState,
      amina, aminaOctRow, aminaSepRow, aminaSick, octNow, List.find?] <;>
    norm_num

/-- C5: the failing input for the claim that a valid adjustment on an
active employee always completes: on `noRowState` (no balance row for
October 2025) the handler inserts the zero row and then raises
`TypeError` instead of returning the
`{message, new_balance, adjustment}` payload. -/
theorem adjust_missing_row_returns_server_error :
    (adjust_leave_balance "emp-1" 0.5 "make-up day" hrActor octNow "bal-n5" "adj-n5"
        noRowState).1
      = .error (.typeError "LeaveBalance object is not subscriptable") := by
  simp [adjust_leave_balance, require_role, resolve_month_balance, month_key,
    active_with_id, hrActor, noRowState, amina, aminaSepRow, octNow, List.find?]

/-- C3 counterexample: Amina has a September 2025 row with
`closing_balance = 20` and `initial_leave_balance = 20`, yet resolving
October 2025 inserts a row with `opening_balance = 0`, not `20`. -/
theorem resolver_opening_ignores_history :
    ((resolve_month_balance noRowState "emp-1" 2025 10 "bal-n3").2.leave_balances.find?
        (month_key "emp-1" 2025 10)).map
      (fun b => (b.opening_balance, b.closing_balance, b.hr_adjustments))
      = some (0, 0, 0)
    ∧ (noRowState.leave_balances.find? (month_key "emp-1" 2025 9)).map
        (fun b => b.closing_balance) = some 20
    ∧ amina.initial_leave_balance = 20
    ∧ (0 : ℚ) ≠ 20 := by
  refine ⟨?_, ?_, ?_, ?_⟩ <;>
    simp [resolve_month_balance, month_key, noRowState, amina, aminaSepRow, List.find?]

/-- Resolver characterization, absent case (shared helper). -/
theorem resolve_month_balance_of_none {s : DBState} {employee_id : String} {year month : Nat}
    (fresh_balance_id : String)
    (hnone : s.leave_balances.find? (month_key employee_id year month) = none) :
    resolve_month_balance s employee_id year month fresh_balance_id
      = (.created ⟨fresh_balance_id, employee_id, year, month, 0, 0, 0, 0⟩,
         { s with leave_balances := s.leave_balances ++
             [⟨fresh_balance_id, employee_id, year, month, 0, 0, 0, 0⟩] }) := by
  unfold resolve_month_balance
  rw [hnone]

/-- Resolver characterization, present case (shared helper). -/
theorem resolve_month_balance_of_some {s : DBState} {employee_id : String} {year month : Nat}
    (fresh_balance_id : String) {b : LeaveBalanceRow}
    (hb : s.leave_balances.find? (month_key employee_id year month) = some b) :
    resolve_month_balance s employee_id year month fresh_balance_id = (.found b, s) := by
  unfold resolve_month_balance
  rw [hb]

/-- C3 amended: when no balance row exists for
`(employeeId, currentYear, currentMonth)`, the find-or-create block
inserts exactly one new row with `opening_balance = closing_balance = 0.0`
and `hr_adjustments = 0`, ignoring the employee's prior rows and
`initial_leave_balance`. -/
theorem resolver_creates_zero_row (s : DBState) (employee_id : String) (year month : Nat)
    (fresh_balance_id : String)
    (hnone : s.leave_balances.find? (month_key employee_id year month) = none) :
    resolve_month_balance s employee_id year month fresh_balance_id
      = (.created ⟨fresh_balance_id, employee_id, year, month, 0, 0, 0, 0⟩,
         { s with leave_balances := s.leave_balances ++
             [⟨fresh_balance_id, employee_id, year, month, 0, 0, 0, 0⟩] }) :=
  resolve_month_balance_of_none fresh_balance_id hnone

/-- C3 amended witness: resolving October 2025 on `noRowState` appends
the zero row. -/
theorem resolver_creates_zero_row_witness :
    resolve_month_balance noRowState "emp-1" 2025 10 "bal-w3"
      = (.created ⟨"bal-w3", "emp-1", 2025, 10, 0, 0, 0, 0⟩,
         { noRowState with leave_balances :=
             noRowState.leave_balances ++ [⟨"bal-w3", "emp-1", 2025, 10, 0, 0, 0, 0⟩] }) :=
  resolver_creates_zero_row noRowState "emp-1" 2025 10 "bal-w3"
    (by simp [noRowState, aminaSepRow, month_key, List.find?])

/-- C6: the find-or-create block preserves the at-most-one-row-per-
`(employee, year, month)` invariant.  When no row exists for the
requested key it inserts exactly one (first conjunct); when a row already
exists it returns that row and leaves the store untouched, creating no
duplicate (second conjunct); and every key still has at most one row
afterwards (third conjunct). -/
theorem resolver_at_most_one_row (s : DBState) (employee_id : String) (year month : Nat)
    (fresh_balance_id : String)
    (huniq : ∀ e y m, s.leave_balances.countP (month_key e y m) ≤ 1) :
    (s.leave_balances.find? (month_key employee_id year month) = none →
      (resolve_month_balance s employee_id year month
          fresh_balance_id).2.leave_balances.countP (month_key employee_id year month) = 1)
    ∧ (∀ b, s.leave_balances.find? (month_key employee_id year month) = some b →
        resolve_month_balance s employee_id year month fresh_balance_id = (.found b, s))
    ∧ (∀ e y m, (resolve_month_balance s employee_id year month
        fresh_balance_id).2.leave_balances.countP (month_key e y m) ≤ 1) := by
  rcases hfind : s.leave_balances.find? (month_key employee_id year month) with _ | b
  · have hzero : s.leave_balances.countP (month_key employee_id year month) = 0 :=
      List.countP_eq_zero.mpr (List.find?_eq_none.mp hfind)
    rw [resolve_month_balance_of_none fresh_balance_id hfind]
    refine ⟨fun _ => ?_, ?_, ?_⟩
    · simp [List.countP_append, hzero, month_key]
    · intro b hb
      cases hb
    · intro e y m
      by_cases hk : month_key e y m (⟨fresh_balance_id, employee_id, year, month, 0, 0, 0, 0⟩ :
        LeaveBalanceRow) = true
      · simp only [month_key, Bool.and_eq_true, beq_iff_eq] at hk
        obtain ⟨⟨he, hy⟩, hm⟩ := hk
        subst he hy hm
        simp [List.countP_append, hzero, month_key]
      · simp only [List.countP_append]
        have : List.countP (month_key e y m)
            [(⟨fresh_balance_id, employee_id, year, month, 0, 0, 0, 0⟩ : LeaveBalanceRow)] = 0 := by
          simp [List.countP_cons, hk]
        rw [this]
        simpa using huniq e y m
  · rw [resolve_month_balance_of_some fresh_balance_id hfind]
    refine ⟨?_, ?_, fun e y m => huniq e y m⟩
    · intro h
      cases h
    · intro b2 hb2
      injection hb2 with hb2
      rw [hb2]

/-- C6 witness: resolving October 2025 on `noRowState` (one September
row, none for October) yields exactly one October row. -/
theorem resolver_at_most_one_row_witness :
    (resolve_month_balance noRowState "emp-1" 2025 10
        "bal-w6").2.leave_balances.countP (month_key "emp-1" 2025 10) = 1 :=
  (resolver_at_most_one_row noRowState "emp-1" 2025 10 "bal-w6"
      (fun e y m => le_trans (List.countP_le_length _) (by simp [noRowState]))).1
    (by simp [noRowState, aminaSepRow, month_key, List.find?])

/-- C9: every summary the read endpoints return satisfies
`current_leave_balance = ` this month's `closing_balance` (or `0.0` when
no row resolves), `sick_days_used = ` the year's `used_days` (or `0` when
no record exists), and `sick_days_remaining = 3 - sick_days_used`; the
first conjunct covers `get_employee`, the second `get_employees`. -/
theorem summary_view_fields (employee_id : String) (current_user : UserRec)
    (now : NowDate) (s : DBState) :
    (∀ resp, get_employee employee_id current_user now s = .ok resp →
      resp.current_leave_balance
          = (match s.leave_balances.find? (month_key resp.id now.year now.month) with
             | some b => b.closing_balance
             | none => 0)
        ∧ resp.sick_days_used
          = (match s.sick_days.find?
                (fun d => d.employee_id == resp.id && d.year == now.year) with
             | some d => d.used_days
             | none => 0)
        ∧ resp.sick_days_remaining = 3 - resp.sick_days_used)
    ∧ (∀ l, get_employees current_user now s = .ok l → ∀ resp ∈ l,
        resp.current_leave_balance
            = (match s.leave_balances.find? (month_key resp.id now.year now.month) with
               | some b => b.closing_balance
               | none => 0)
          ∧ resp.sick_days_used
            = (match s.sick_days.find?
                  (fun d => d.employee_id == resp.id && d.year == now.year) with
               | some d => d.used_days
               | none => 0)
          ∧ resp.sick_days_remaining = 3 - resp.sick_days_used) := by
  constructor
  · intro resp h
    unfold get_employee at h
    split at h
    · cases h
    · split at h
      · cases h
      · rename_i employee hfind
        injection h with h
        have hid : employee.id = employee_id := by
          have := List.find?_some hfind
          simp only [active_with_id, Bool.and_eq_true, beq_iff_eq] at this
          exact this.1
        subst h
        refine ⟨?_, ?_, rfl⟩
        · simp [employee_response, current_balance_of, hid]
        · simp [employee_response, sick_days_used_of, hid]
  · intro l h resp hresp
    unfold get_employees at h
    split at h
    · cases h
    · injection h with h
      subst h
      rcases List.mem_map.mp hresp with ⟨emp, _, rfl⟩
      exact ⟨by simp [employee_response, current_balance_of],
        by simp [employee_response, sick_days_used_of], rfl⟩

/-- C9 witness: the summary of Amina computed from `withRowState`
(October row closing `20`, one used sick day) satisfies the three field
equations. -/
theorem summary_view_fields_witness :
    aminaSummary.current_leave_balance
        = (match withRowState.leave_balances.find?
              (month_key aminaSummary.id octNow.year octNow.month) with
           | some b => b.closing_balance
           | none => 0)
      ∧ aminaSummary.sick_days_used
        = (match withRowState.sick_days.find?
              (fun d => d.employee_id == aminaSummary.id && d.year == octNow.year) with
           | some d => d.used_days
           | none => 0)
      ∧ aminaSummary.sick_days_remaining = 3 - aminaSummary.sick_days_used :=
  (summary_view_fields "emp-1" hrActor octNow withRowState).1 aminaSummary
    (by simp [get_employee, require_role, hrActor, withRowState, amina, aminaOctRow,
      aminaSick, octNow, active_with_id, employee_response, current_balance_of,
      sick_days_used_of, month_key, aminaSummary, List.find?])

/-- C10: a soft-deleted employee is invisible to the read interface.
If every employee document carrying the requested id has
`is_active = false`, `get_employee` returns the 404 error (first
conjunct); and every summary `get_employees` returns comes from a
document with `is_active = true` (second conjunct). -/
theorem inactive_employee_invisible (employee_id : String) (current_user : UserRec)
    (now : NowDate) (s : DBState)
    (hrole : current_user.role ∈ [UserRole.admin, UserRole.hr, UserRole.manager]) :
    ((∀ e ∈ s.employees, e.id = employee_id → e.is_active = false) →
      get_employee employee_id current_user now s = .error (.http 404 "Employee not found"))
    ∧ ∀ l, get_employees current_user now s = .ok l →
        ∀ resp ∈ l, ∃ e ∈ s.employees, e.is_active = true ∧ e.id = resp.id := by
  constructor
  · intro hin
    unfold get_employee require_role
    rw [if_pos hrole]
    have hnone : s.employees.find? (active_with_id employee_id) = none := by
      apply List.find?_eq_none.mpr
      intro e he hc
      simp only [active_with_id, Bool.and_eq_true, beq_iff_eq] at hc
      rw [hin e he hc.1] at hc
      cases hc.2
    rw [hnone]
  · intro l h resp hresp
    unfold get_employees require_role at h
    rw [if_pos hrole] at h
    injection h with h
    subst h
    rcases List.mem_map.mp hresp with ⟨emp, hemp, rfl⟩
    have hf := List.mem_filter.mp hemp
    exact ⟨emp, hf.1, hf.2, rfl⟩

/-- C10 witness: Youssef is soft-deleted in `mixedState`, so fetching him
returns the 404 error. -/
theorem inactive_employee_invisible_witness :
    get_employee "emp-2" hrActor octNow mixedState
      = .error (.http 404 "Employee not found") :=
  (inactive_employee_invisible "emp-2" hrActor octNow mixedState (by simp [hrActor])).1
    (by decide)

/-- Appending a balance row with a fresh id keeps the ids nodup (shared
helper). -/
theorem nodup_ids_append {l : List LeaveBalanceRow} {row : LeaveBalanceRow}
    (hnodup : (l.map (fun b => b.id)).Nodup) (hfresh : row.id ∉ l.map (fun b => b.id)) :
    ((l ++ [row]).map (fun b => b.id)).Nodup := by
  rw [List.map_append, List.nodup_append]
  refine ⟨hnodup, List.nodup_singleton _, ?_⟩
  intro a ha hb
  simp only [List.map_cons, List.map_nil, List.mem_singleton] at hb
  subst hb
  exact hfresh ha

/-- The operation `create_employee` preserves the ledger invariant (shared helper). -/
theorem goodLedger_create (employee_data : EmployeeCreate) (current_user : UserRec)
    (now : NowDate) (fresh : FreshEmployeeIds) (s : DBState)
    (hfresh : fresh.balance_id ∉ s.leave_balances.map (fun b => b.id))
    (hs : goodLedger s) :
    goodLedger (create_employee employee_data current_user now fresh s).2 := by
  unfold create_employee
  split
  · exact hs
  · split
    · exact hs
    · split
      · exact hs
      · refine ⟨nodup_ids_append hs.1 hfresh, ?_⟩
        intro b hb
        rcases List.mem_append.mp hb with hb | hb
        · exact hs.2 b hb
        · simp only [List.mem_singleton] at hb
          subst hb
          simp [rowBalanced]

/-- A successful or failing `adjust_leave_balance` call preserves the
ledger invariant (shared helper). -/
theorem goodLedger_adjust (employee_id : String) (adjustment : ℚ) (reason : String)
    (current_user : UserRec) (now : NowDate) (fresh_balance_id fresh_adjustment_id : String)
    (s : DBState) (hfresh : fresh_balance_id ∉ s.leave_balances.map (fun b => b.id))
    (hs : goodLedger s) :
    goodLedger (adjust_leave_balance employee_id adjustment reason current_user now
      fresh_balance_id fresh_adjustment_id s).2 := by
  unfold adjust_leave_balance
  split
  · exact hs
  · split
    · exact hs
    · split
      · exact hs
      · rcases hfind : s.leave_balances.find? (month_key employee_id now.year now.month)
          with _ | lb
        · rw [resolve_month_balance_of_none fresh_balance_id hfind]
          refine ⟨nodup_ids_append hs.1 hfresh, ?_⟩
          intro b hb
          rcases List.mem_append.mp hb with hb | hb
          · exact hs.2 b hb
          · simp only [List.mem_singleton] at hb
            subst hb
            simp [rowBalanced]
        · rw [resolve_month_balance_of_some fresh_balance_id hfind]
          have hlbmem : lb ∈ s.leave_balances := List.mem_of_find?_eq_some hfind
          constructor
          · show ((updateFirst (fun b => b.id == lb.id)
                (fun b => { b with
                  hr_adjustments := b.hr_adjustments + adjustment
                  closing_balance := lb.closing_balance + adjustment })
                s.leave_balances).map (fun b => b.id)).Nodup
            rw [map_updateFirst (fun b : LeaveBalanceRow => b.id == lb.id)
              (fun b : LeaveBalanceRow => { b with
                hr_adjustments := b.hr_adjustments + adjustment
                closing_balance := lb.closing_balance + adjustment })
              (fun b : LeaveBalanceRow => b.id) (fun _ => rfl)]
            exact hs.1
          · intro b hb
            replace hb : b ∈ updateFirst (fun b => b.id == lb.id)
                (fun b => { b with
                  hr_adjustments := b.hr_adjustments + adjustment
                  closing_balance := lb.closing_balance + adjustment })
                s.leave_balances := hb
            rcases mem_updateFirst hb with ⟨c, hc, hpc, rfl⟩ | hb
            · simp only [beq_iff_eq] at hpc
              have hceq : c = lb := List.inj_on_of_nodup_map hs.1 hc hlbmem hpc
              subst hceq
              have hbal := hs.2 c hlbmem
              simp only [rowBalanced] at hbal ⊢
              rw [hbal]
              ring
            · exact hs.2 b hb

/-- Every reachable store satisfies the ledger invariant (shared helper). -/
theorem goodLedger_reachable {s : DBState} (hs : Reachable s) : goodLedger s := by
  induction hs with
  | empty =>
    refine ⟨List.nodup_nil, ?_⟩
    intro b hb
    cases hb
  | create employee_data current_user now fresh hfresh hs ih =>
    exact goodLedger_create employee_data current_user now fresh _ hfresh ih
  | adjust employee_id adjustment reason current_user now fb fa hfresh hs ih =>
    exact goodLedger_adjust employee_id adjustment reason current_user now fb fa _ hfresh ih

/-- C4: in every store reachable by employee creations and adjustment
calls, every leave-balance row satisfies
`closing_balance = opening_balance + hr_adjustments`: creation seeds
`closing = opening` with `hr_adjustments = 0`, the fallback row is all
zeroes, and each applied adjustment adds the same amount to
`closing_balance` and to `hr_adjustments`. -/
theorem closing_balance_invariant (s : DBState) (hs : Reachable s) :
    ∀ b ∈ s.leave_balances, b.closing_balance = b.opening_balance + b.hr_adjustments :=
  fun b hb => (goodLedger_reachable hs).2 b hb

/-- C4 witness: after creating Amina (opening 20) in an empty store and
adjusting by `+1`, her row is `closing 21 = opening 20 + adjustments 1`. -/
theorem closing_balance_invariant_witness :
    demoRow.closing_balance = demoRow.opening_balance + demoRow.hr_adjustments :=
  closing_balance_invariant demoState
    (Reachable.adjust "emp-1" 1 "make-up day" adminActor octNow "bal-x" "adj-x"
      (by simp [create_employee, require_role, adminActor, demoCreate, demoFresh,
        DBState.empty, hash_password, log_audit, List.find?])
      (Reachable.create demoCreate adminActor octNow demoFresh
        (by simp [DBState.empty]) Reachable.empty))
    demoRow
    (by
      simp [demoState, demoCreate, demoFresh, adminActor, octNow, create_employee,
        adjust_leave_balance, require_role, resolve_month_balance, month_key,
        active_with_id, updateFirst, log_audit, hash_password, DBState.empty, demoRow,
        List.find?]
      norm_num)

/-- C7 counterexample: two concurrent `+1.0` adjustments (sum `S = 2`)
against Amina's fresh October row (`opening = closing = 20`).  In the
interleaving where both requests read the balance row before either
writes it, both complete, yet the final `closing_balance` is `21`, not
`opening + S = 22`: the second `$set` overwrites the first one's update
(`hr_adjustments`, written with `$inc`, correctly reaches `2`). -/
theorem concurrent_adjust_lost_update :
    (raceResult.2.leave_balances.find? (month_key "emp-1" 2025 10)).map
        (fun b => (b.opening_balance, b.closing_balance, b.hr_adjustments))
      = some (20, 21, 2)
    ∧ raceResult.1.map (fun r => r.pc) = [.finished 21, .finished 21]
    ∧ (21 : ℚ) ≠ 20 + (1 + 1) := by
  refine ⟨?_, ?_, by norm_num⟩ <;>
    (simp [raceResult, raceRequests, run_schedule, request_step, withRowState, hrActor,
       amina, aminaOctRow, aminaSick, octNow, month_key, active_with_id, updateFirst,
       log_audit, List.find?]
     norm_num)

/-- Searching after an update keyed by the id of the found row returns the
updated row, provided ids are nodup and the update keeps the id and the
search key (shared helper). -/
theorem find?_updateFirst_of_nodup {l : List LeaveBalanceRow} {q : LeaveBalanceRow → Bool}
    {b : LeaveBalanceRow} (f : LeaveBalanceRow → LeaveBalanceRow)
    (hnodup : (l.map (fun x => x.id)).Nodup)
    (hfind : l.find? q = some b)
    (hq : q (f b) = q b) :
    (updateFirst (fun x => x.id == b.id) f l).find? q = some (f b) := by
  induction l with
  | nil => cases hfind
  | cons x xs ih =>
    simp only [List.map_cons, List.nodup_cons] at hnodup
    by_cases hqx : q x = true
    · rw [List.find?_cons_of_pos _ hqx] at hfind
      injection hfind with hfind
      subst hfind
      simp only [updateFirst]
      rw [if_pos (by simp)]
      exact List.find?_cons_of_pos _ (by rw [hq, hqx])
    · rw [List.find?_cons_of_neg _ hqx] at hfind
      have hbmem : b ∈ xs := List.mem_of_find?_eq_some hfind
      have hpx : ((fun x => x.id == b.id) x) = false := by
        simp only [beq_eq_false_iff_ne, ne_eq]
        intro hcon
        exact hnodup.1 (hcon ▸ List.mem_map_of_mem (fun y => y.id) hbmem)
      simp only [updateFirst]
      rw [if_neg (by simp [hpx] : ¬((fun x => x.id == b.id) x) = true)]
      rw [List.find?_cons_of_neg _ hqx]
      exact ih hnodup.2 hfind

/-- Full characterization of a successful adjustment on an existing month
row (shared helper). -/
theorem adjust_of_found (employee_id : String) (adjustment : ℚ) (reason : String)
    (current_user : UserRec) (now : NowDate) (fresh_balance_id fresh_adjustment_id : String)
    (s : DBState) (employee : EmployeeRec) (b : LeaveBalanceRow)
    (hrole : current_user.role ∈ [UserRole.admin, UserRole.hr])
    (ha : adjustment ∈ [(1 : ℚ), -1, 0.5, -0.5])
    (hememp : s.employees.find? (active_with_id employee_id) = some employee)
    (hfind : s.leave_balances.find? (month_key employee_id now.year now.month) = some b) :
    adjust_leave_balance employee_id adjustment reason current_user now fresh_balance_id
        fresh_adjustment_id s
      = (.ok ⟨"Leave balance adjusted successfully", b.closing_balance + adjustment,
          adjustment⟩,
         { s with
            leave_balances := updateFirst (fun x => x.id == b.id)
              (fun x => { x with
                closing_balance := b.closing_balance + adjustment
                hr_adjustments := x.hr_adjustments + adjustment })
              s.leave_balances
            leave_adjustments := s.leave_adjustments ++
              [⟨fresh_adjustment_id, employee_id, adjustment, reason, current_user.id⟩]
            audit_logs := s.audit_logs ++
              [⟨current_user.id, "ADJUST_LEAVE_BALANCE", "employee", employee_id,
                .adjustLeave employee.full_name adjustment reason
                  (b.closing_balance + adjustment)⟩] }) := by
  unfold adjust_leave_balance require_role
  rw [if_pos hrole]
  dsimp only
  rw [if_neg (not_not_intro ha)]
  rw [hememp]
  dsimp only
  rw [resolve_month_balance_of_some fresh_balance_id hfind]
  rfl

/-- One successful adjustment keeps the employees collection and the
balance-row ids, and moves the month row by the amount (shared helper). -/
theorem adjust_found_step (employee_id : String) (adjustment : ℚ) (reason : String)
    (current_user : UserRec) (now : NowDate) (fresh_balance_id fresh_adjustment_id : String)
    (s : DBState) (b : LeaveBalanceRow)
    (hrole : current_user.role ∈ [UserRole.admin, UserRole.hr])
    (ha : adjustment ∈ [(1 : ℚ), -1, 0.5, -0.5])
    (hemp : (s.employees.find? (active_with_id employee_id)).isSome = true)
    (hnodup : (s.leave_balances.map (fun x => x.id)).Nodup)
    (hfind : s.leave_balances.find? (month_key employee_id now.year now.month) = some b) :
    ((adjust_leave_balance employee_id adjustment reason current_user now fresh_balance_id
        fresh_adjustment_id s).2.employees = s.employees)
    ∧ ((adjust_leave_balance employee_id adjustment reason current_user now fresh_balance_id
        fresh_adjustment_id s).2.leave_balances.map (fun x => x.id)
        = s.leave_balances.map (fun x => x.id))
    ∧ ((adjust_leave_balance employee_id adjustment reason current_user now fresh_balance_id
        fresh_adjustment_id s).2.leave_balances.find?
          (month_key employee_id now.year now.month)
        = some { b with
            closing_balance := b.closing_balance + adjustment
            hr_adjustments := b.hr_adjustments + adjustment }) := by
  obtain ⟨employee, hememp⟩ := Option.isSome_iff_exists.mp hemp
  rw [adjust_of_found employee_id adjustment reason current_user now fresh_balance_id
    fresh_adjustment_id s employee b hrole ha hememp hfind]
  refine ⟨rfl, ?_, ?_⟩
  · exact map_updateFirst (fun x : LeaveBalanceRow => x.id == b.id)
      (fun x : LeaveBalanceRow => { x with
        closing_balance := b.closing_balance + adjustment
        hr_adjustments := x.hr_adjustments + adjustment })
      (fun x : LeaveBalanceRow => x.id) (fun _ => rfl)
  · exact find?_updateFirst_of_nodup _ hnodup hfind rfl

/-- C7 amended: when the same N adjustments run sequentially (each call
completing before the next starts) against an existing month row, no
update is lost: the final row carries `closing_balance` and
`hr_adjustments` increased by exactly the sum S of the amounts — so a
freshly created row (`closing = opening`) ends at `opening + S`. -/
theorem sequential_adjustments_no_lost_update (amounts : List ℚ) (employee_id reason : String)
    (current_user : UserRec) (now : NowDate) (s : DBState) (b : LeaveBalanceRow)
    (hrole : current_user.role ∈ [UserRole.admin, UserRole.hr])
    (hall : ∀ a ∈ amounts, a ∈ [(1 : ℚ), -1, 0.5, -0.5])
    (hemp : (s.employees.find? (active_with_id employee_id)).isSome = true)
    (hnodup : (s.leave_balances.map (fun x => x.id)).Nodup)
    (hfind : s.leave_balances.find? (month_key employee_id now.year now.month) = some b) :
    (apply_all employee_id reason current_user now amounts s).leave_balances.find?
        (month_key employee_id now.year now.month)
      = some { b with
          closing_balance := b.closing_balance + amounts.sum
          hr_adjustments := b.hr_adjustments + amounts.sum } := by
  induction amounts generalizing s b with
  | nil =>
    simp only [apply_all, List.sum_nil, add_zero]
    rw [hfind]
  | cons a rest ih =>
    obtain ⟨hempeq, hids, hfind2⟩ := adjust_found_step employee_id a reason current_user now
      "seq-bal" "seq-adj" s b hrole (hall a (List.mem_cons_self a rest)) hemp hnodup hfind
    rw [apply_all]
    rw [ih ((adjust_leave_balance employee_id a reason current_user now
        "seq-bal" "seq-adj" s).2)
      ({ b with
          closing_balance := b.closing_balance + a
          hr_adjustments := b.hr_adjustments + a })
      (fun a2 ha2 => hall a2 (List.mem_cons_of_mem a ha2))
      (by rw [hempeq]; exact hemp) (by rw [hids]; exact hnodup) hfind2]
    simp only [Option.some.injEq, List.sum_cons]
    congr 1 <;> ring

/-- C7 amended witness: two sequential `+1.0` adjustments on Amina's
fresh October row end with `closing_balance = 22 = opening + 2` — the
outcome the concurrent interleaving of the counterexample fails to
reach. -/
theorem sequential_adjustments_no_lost_update_witness :
    (apply_all "emp-1" "comp day" hrActor octNow [1, 1] withRowState).leave_balances.find?
        (month_key "emp-1" octNow.year octNow.month)
      = some ⟨"bal-oct", "emp-1", 2025, 10, 20, 0, 2, 22⟩ := by
  have h := sequential_adjustments_no_lost_update [1, 1] "emp-1" "comp day" hrActor octNow
    withRowState aminaOctRow (by simp [hrActor])
    (by intro a ha; simp only [List.mem_cons, List.mem_singleton] at ha
        rcases ha with rfl | rfl | h
        · norm_num
        · norm_num
        · cases h)
    (by simp [withRowState, amina, active_with_id, List.find?])
    (by simp [withRowState, aminaOctRow])
    (by simp [withRowState, aminaOctRow, month_key, octNow, List.find?])
  rw [h]
  norm_num [aminaOctRow]

end WaQteK
